import Mathlib

/-
Verification of the "Word Checker" survey application (src/validation_app.py)
against its natural-language specification.

The development shallowly embeds the Python source.  Pure Python string
helpers are re-implemented on `List Char` so that every definition is
executable and kernel-reducible; stateful Streamlit session code becomes
explicit state passing over a `SessionState` structure; fallible
operations return `Option` / a `Bool` success flag.  External
collaborators that the source merely calls into -- `json.loads`,
`ast.literal_eval`, `random.sample`, `random.shuffle`, and the durable
file append performed by `DataFrame.to_csv` -- are parameters of the
embedding (a parser pair, a sampler, a shuffler, an append outcome flag),
constrained only by the contracts those libraries document.
-/

namespace WC

/-! ## Python string primitives

Executable models of the Python `str` methods used by the source
(`strip`, `lower`, `startswith`, `endswith`, `in`, `replace`).  They are
defined by structural recursion on `List Char` so that concrete runs
reduce in the kernel. -/

/-- Characters removed by Python `str.strip()`. -/
def pySpace (c : Char) : Bool :=
  c == ' ' || c == '\t' || c == '\n' || c == '\r' || c == '\x0b' || c == '\x0c'

/-- Python `str.strip()`. -/
def pyStrip (s : String) : String :=
  String.mk (((s.data.dropWhile pySpace).reverse.dropWhile pySpace).reverse)

/-- Python `str.lower()` (ASCII range; the source only lowercases column names). -/
def strLower (s : String) : String :=
  String.mk (s.data.map Char.toLower)

/-- Python `s.startswith(pre)`. -/
def pyStartsWith (s pre : String) : Bool :=
  pre.data.isPrefixOf s.data

/-- Python `s.endswith(suf)`. -/
def pyEndsWith (s suf : String) : Bool :=
  suf.data.isSuffixOf s.data

/-- Python `c in s` for a single character `c`. -/
def strHasChar (s : String) (c : Char) : Bool :=
  s.data.contains c

/-- Helper for substring containment. -/
def subOfAux (pat : List Char) : List Char → Bool
  | [] => pat.isEmpty
  | c :: rest => pat.isPrefixOf (c :: rest) || subOfAux pat rest

/-- Python `pat in s` (substring containment). -/
def pyContains (s pat : String) : Bool :=
  subOfAux pat.data s.data

/-- Fuel-bounded worker for Python `str.replace`: replaces non-overlapping
occurrences of `pat` left to right.  One character is consumed per step,
so fuel equal to the input length is always sufficient. -/
def replaceAux (pat rep : List Char) : Nat → List Char → List Char
  | _, [] => []
  | 0, l => l
  | fuel + 1, c :: rest =>
    if pat.isPrefixOf (c :: rest) then
      rep ++ replaceAux pat rep fuel ((c :: rest).drop pat.length)
    else
      c :: replaceAux pat rep fuel rest

/-- Python `s.replace(pat, rep)`.  Every call site in the source uses a
non-empty pattern; an empty pattern returns `s` unchanged. -/
def pyReplace (s pat rep : String) : String :=
  if pat = "" then s
  else String.mk (replaceAux pat.data rep.data s.data.length s.data)

/-- The character `{` (kept out of string literals). -/
def lbrace : Char := Char.ofNat 123

/-- The character `}` (kept out of string literals). -/
def rbrace : Char := Char.ofNat 125

/-! ## A model of Python values

`safe_literal_eval` can receive and produce strings, numbers, lists and
dicts; this inductive covers the shapes the function distinguishes. -/

inductive PyVal where
  | pstr (v : String)
  | pint (v : Int)
  | pbool (b : Bool)
  | pnone
  | plist (xs : List PyVal)
  | ptuple (xs : List PyVal)
  | pset (xs : List PyVal)
  | pdict (xs : List (PyVal × PyVal))

/-- Fuel-bounded model of Python `repr` for `PyVal` (used only through
`str(parsed[0])` on decoded example sentences; the claims never depend on
the exact rendering of nested non-string values). -/
def pyReprFuel : Nat → PyVal → String
  | 0, _ => ""
  | _ + 1, .pstr s => "\x27" ++ s ++ "\x27"
  | _ + 1, .pint n => toString n
  | _ + 1, .pbool b => if b then "True" else "False"
  | _ + 1, .pnone => "None"
  | fuel + 1, .plist xs =>
    "[" ++ String.intercalate ", " (xs.map (pyReprFuel fuel)) ++ "]"
  | fuel + 1, .ptuple xs =>
    "(" ++ String.intercalate ", " (xs.map (pyReprFuel fuel)) ++ ")"
  | fuel + 1, .pset xs =>
    "\x7b" ++ String.intercalate ", " (xs.map (pyReprFuel fuel)) ++ "\x7d"
  | fuel + 1, .pdict xs =>
    "\x7b" ++
      String.intercalate ", "
        (xs.map (fun p => pyReprFuel fuel p.1 ++ ": " ++ pyReprFuel fuel p.2)) ++
      "\x7d"

mutual

/-- Depth of a `PyVal`. -/
def pyDepth : PyVal → Nat
  | .pstr _ => 1
  | .pint _ => 1
  | .pbool _ => 1
  | .pnone => 1
  | .plist xs => pyDepthL xs + 1
  | .ptuple xs => pyDepthL xs + 1
  | .pset xs => pyDepthL xs + 1
  | .pdict xs => pyDepthP xs + 1

/-- Depth of a list of `PyVal`s. -/
def pyDepthL : List PyVal → Nat
  | [] => 0
  | x :: xs => Nat.max (pyDepth x) (pyDepthL xs)

/-- Depth of an association list of `PyVal` pairs. -/
def pyDepthP : List (PyVal × PyVal) → Nat
  | [] => 0
  | p :: ps => Nat.max (Nat.max (pyDepth p.1) (pyDepth p.2)) (pyDepthP ps)

end

/-- Model of Python `repr(v)`. -/
def pyRepr (v : PyVal) : String := pyReprFuel (pyDepth v) v

/-- Model of Python `str(v)`: a string renders as itself, any other value
as its `repr`. -/
def pyToString : PyVal → String
  | .pstr s => s
  | v => pyRepr v

/-! ## `safe_literal_eval` (src/validation_app.py lines 21-61)

`json.loads` and `ast.literal_eval` are Python standard-library
collaborators; they are passed in as parameters.  `jp` models
`json.loads` restricted to the call site (the guarded argument starts
with `[`, so a successful JSON parse is necessarily an array); `le`
models `ast.literal_eval`, returning `none` where the library would
raise (the source catches `ValueError`/`SyntaxError`/`MemoryError`/
`TypeError` and falls back to the original string).  At this call site
`ast.literal_eval` receives bracket-delimited text only, but its result
is not restricted to lists and dicts: `ast.literal_eval("\x7b1, 2\x7d")`
is a set and `ast.literal_eval("[1],[2]")` is a tuple, which is why
`le`'s result type is the full `PyVal`. -/

/-- The single-quote-to-double-quote fixups applied before the JSON
attempt when the bracketed text also contains braces (lines 39-44).
These `str.replace` calls cannot raise, so the inner `try` is the
identity on control flow. -/
def brace_fixups (p : String) : String :=
  let p1 := pyReplace p "\x27s " "___TEMP_APOSTROPHE___"
  let p2 := pyReplace p1 "\x27: \x27" "\": \""
  let p3 := pyReplace p2 "\x7b\x27" "\x7b\""
  let p4 := pyReplace p3 "\x27," "\","
  let p5 := pyReplace p4 "\x27\x7d" "\"\x7d"
  pyReplace p5 "___TEMP_APOSTROPHE___" "\x27s "

/-- Lines 21-61: extract list/dict values from strings.  Non-strings and
blank strings are returned as-is; a bracketed string is offered to JSON
(after normalising escaped quotes, plus the brace fixups when it looks
like it contains dicts); on JSON failure a literal-shaped string is
offered to `ast.literal_eval`; every failure path returns the original
value. -/
def safe_literal_eval (jp : String → Option (List PyVal))
    (le : String → Option PyVal) : PyVal → PyVal
  | .plist xs => .plist xs
  | .pdict xs => .pdict xs
  | .pint n => .pint n
  | .pbool b => .pbool b
  | .pnone => .pnone
  | .ptuple xs => .ptuple xs
  | .pset xs => .pset xs
  | .pstr val =>
    if pyStrip val = "" then .pstr val
    else
      let processed := pyReplace val "\\\"" "\""
      let jres : Option (List PyVal) :=
        if pyStartsWith processed "[" && pyEndsWith processed "]" then
          jp (if strHasChar processed lbrace && strHasChar processed rbrace then
                brace_fixups processed
              else processed)
        else none
      match jres with
      | some xs => .plist xs
      | none =>
        if (pyStartsWith val "[" && pyEndsWith val "]")
            || (pyStartsWith val "\x7b" && pyEndsWith val "\x7d") then
          match le val with
          | some v => v
          | none => .pstr val
        else .pstr val

/-- Lines 734-741: derive the example sentence shown for a word from its
raw `source_sentences` cell.  A decoded non-empty list contributes its
first element (stringified and stripped); a string result is used as-is
(Python's non-emptiness test there is the identity on strings, since the
variable already defaults to the empty string); anything else leaves the
example empty. -/
def example_sentence_of (jp : String → Option (List PyVal))
    (le : String → Option PyVal) (raw : String) : String :=
  match safe_literal_eval jp le (.pstr raw) with
  | .plist (x :: _) => pyStrip (pyToString x)
  | .plist [] => ""
  | .pstr s => s
  | _ => ""

/-- A `json.loads` model that always fails (never invoked on the inputs
used by concrete runs below, which are not bracket-delimited or fail both
parsers in the source as well). -/
def noJson : String → Option (List PyVal) := fun _ => none

/-- An `ast.literal_eval` model that always raises. -/
def noLit : String → Option PyVal := fun _ => none

/-! ## Tabular data model

The manual CSV reader produces a header and rows of strings; the
standardisation step can introduce an integer-typed intensity column
(line 248), so cells carry either a string or an integer, mirroring the
two dtypes a column can have at that point. -/

inductive Cell where
  | s (v : String)
  | i (v : Int)
deriving DecidableEq

/-- Pandas `astype(str)` view of a cell. -/
def cellStr (c : Cell) : String :=
  match c with
  | .s v => v
  | .i n => toString n

/-- A DataFrame: column names plus rows of cells. -/
structure CsvFrame where
  cols : List String
  rows : List (List Cell)
deriving DecidableEq

/-! ## `read_csv_manually` (lines 83-156)

The file handle and `csv.reader` tokenisation are external; the embedding
starts from the list of field-rows the reader yields (the first row being
the header).  Rows whose fields all strip to empty are skipped; a row
with too few fields is padded with empty strings, one with too many is
truncated, and both increment the repaired-row counter. -/

/-- Line 108: a row every field of which strips to empty. -/
def rowBlank (r : List String) : Bool :=
  r.all (fun f => pyStrip f = "")

/-- Lines 106-125: the row-repair loop.  Returns the kept rows (in input
order) and the count of rows whose field count had to be corrected. -/
def readCsvLoop (expected : Nat) : List (List String) → List (List String) × Nat
  | [] => ([], 0)
  | r :: rest =>
    if rowBlank r then readCsvLoop expected rest
    else
      let t := readCsvLoop expected rest
      if r.length = expected then (r :: t.1, t.2)
      else if r.length < expected then
        ((r ++ List.replicate (expected - r.length) "") :: t.1, t.2 + 1)
      else
        (r.take expected :: t.1, t.2 + 1)

/-- Line 136: the one summary message about repaired rows (the filename
prefix is presentation and omitted). -/
def repairMsg (k expected : Nat) : String :=
  "Corrected " ++ toString k ++
    " rows with inconsistent field counts (expected " ++ toString expected ++ ")."

/-- Lines 83-156: build the DataFrame.  An empty file yields an empty
frame (the source returns `pd.DataFrame()` on `StopIteration`); a
header-only file yields a frame with columns and no rows. -/
def read_csv_manually (content : List (List String)) : CsvFrame :=
  match content with
  | [] => { cols := [], rows := [] }
  | header :: rest =>
    { cols := header
      rows := (readCsvLoop header.length rest).1.map (fun r => r.map Cell.s) }

/-- Lines 135-136: the repair summary is emitted once, only when at least
one row was repaired. -/
def readMsgs (content : List (List String)) : List String :=
  match content with
  | [] => []
  | header :: rest =>
    if (readCsvLoop header.length rest).2 > 0 then
      [repairMsg (readCsvLoop header.length rest).2 header.length]
    else []

/-- Specification-side description of the repair of one row (stated from
the spec's words "padded with empty values" / "truncated to the header's
field count"), to be compared with the source loop. -/
def fitRow (expected : Nat) (r : List String) : List String :=
  if r.length ≤ expected then r ++ List.replicate (expected - r.length) ""
  else r.take expected

/-! ## `load_lexicon` (lines 169-298) -/

/-- Lines 158-167: lowercase and strip every column name. -/
def normalize_column_names (fr : CsvFrame) : CsvFrame :=
  { cols := fr.cols.map (fun c => pyStrip (strLower c)), rows := fr.rows }

/-- Line 211. -/
def possible_word_cols : List String := ["word", "words", "term", "lemma"]

/-- Lines 209-229: locate the word column: exact alternates in priority
order, then any column containing "word", then the first column. -/
def findWordCol (cols : List String) : Option String :=
  match possible_word_cols.find? (fun c => cols.contains c) with
  | some c => some c
  | none =>
    match cols.filter (fun c => pyContains c "word") with
    | c :: _ => some c
    | [] => cols.head?

/-- Lines 231-234: rename the identified column to `word` (pandas renames
every column bearing that name). -/
def renameWordCol (fr : CsvFrame) (w : String) : CsvFrame :=
  if w = "word" then fr
  else { cols := fr.cols.map (fun c => if c = w then "word" else c), rows := fr.rows }

/-- `df[name]` for one row: first column of that name, empty-string cell
when the column or field is missing. -/
def getCell (cols : List String) (r : List Cell) (name : String) : Cell :=
  match cols.findIdx? (fun c => c == name) with
  | some idx => r.getD idx (Cell.s "")
  | none => Cell.s ""

/-- The three outcomes of `pd.to_numeric(·, errors="coerce")` followed by
`.fillna(0).astype(int)` for one value: a finite number (truncated toward
zero by `astype(int)`), `NaN` (the unparsable case -- `fillna(0)` turns it
into 0), or an infinity -- on which `astype(int)` raises
`IntCastingNaNError`, failing the whole ingestion. -/
inductive NumParse where
  | fin (n : Int)
  | nan
  | inf
deriving DecidableEq

/-- Value of a digit string. -/
def digitsVal (l : List Char) : Nat :=
  l.foldl (fun a c => 10 * a + (c.toNat - 48)) 0

/-- Unsigned decimal parse with optional fraction and optional exponent
(`12`, `3.7`, `.5`, `5.`, `1e3`, `1.5E+2`, `1e-2`), returning the value
truncated toward zero; `none` where the pandas parser rejects the text.
Truncation of `(ip*10^f + fr) / 10^f * 10^(±e)` is computed with `Nat`
division (floor = truncation for non-negative values). -/
def parseDecExp (l : List Char) : Option Nat :=
  let ip := l.takeWhile Char.isDigit
  let r1 := l.dropWhile Char.isDigit
  let fr :=
    match r1 with
    | '.' :: rest => rest.takeWhile Char.isDigit
    | _ => []
  let r2 :=
    match r1 with
    | '.' :: rest => rest.dropWhile Char.isDigit
    | _ => r1
  if ip.isEmpty && fr.isEmpty then none
  else
    let num := digitsVal ip * 10 ^ fr.length + digitsVal fr
    let den := 10 ^ fr.length
    match r2 with
    | [] => some (num / den)
    | c :: rest =>
      if c = 'e' || c = 'E' then
        let ed :=
          match rest with
          | '-' :: rest2 => rest2
          | '+' :: rest2 => rest2
          | rest2 => rest2
        let eneg :=
          match rest with
          | '-' :: _ => true
          | _ => false
        if ed.isEmpty || !(ed.all Char.isDigit) then none
        else if eneg then some (num / (den * 10 ^ digitsVal ed))
        else some (num * 10 ^ digitsVal ed / den)
      else none

/-- Model of `pd.to_numeric(v, errors="coerce")` on one string cell,
composed with the truncation of `astype(int)`: strip, optional sign,
then either an infinity spelling (`inf`/`infinity`, case-insensitive),
a decimal/exponent numeral (truncated toward zero, the sign applied
after truncation, matching `astype(int)`'s rounding toward zero), or
`NaN` for everything else.  (Pandas also accepts a few exotic spellings
-- hex, underscores -- whose absence here is immaterial to the claims.) -/
def pandasNum (s : String) : NumParse :=
  let t := (pyStrip s).data
  let neg :=
    match t with
    | '-' :: _ => true
    | _ => false
  let body :=
    match t with
    | '-' :: rest => rest
    | '+' :: rest => rest
    | l => l
  if strLower (String.mk body) = "inf" || strLower (String.mk body) = "infinity" then
    NumParse.inf
  else
    match parseDecExp body with
    | some n => NumParse.fin (if neg then -(Int.ofNat n) else Int.ofNat n)
    | none => NumParse.nan

/-- Line 262 (and 248) per cell:
`pd.to_numeric(·, errors="coerce").fillna(0).astype(int)` -- an already
numeric cell passes through, a finite numeral is truncated toward zero,
an unparsable value becomes `NaN` and is coerced to 0 by `fillna(0)`.
The `.inf` arm is never observed: `load_lexicon` refuses to build rows
when any intensity-source cell is non-finite (`ingestRaises`), modelling
the `IntCastingNaNError` that `astype(int)` raises there. -/
def toNumericInt (c : Cell) : Int :=
  match c with
  | .i n => n
  | .s v =>
    match pandasNum v with
    | .fin n => n
    | .nan => 0
    | .inf => 0

/-- Whether `astype(int)` raises on this cell: only a string cell whose
numeric parse is an infinity (`NaN` has been filled with 0 first, and an
already-integer column has no non-finite values). -/
def cellInf (c : Cell) : Bool :=
  match c with
  | .i _ => false
  | .s v =>
    match pandasNum v with
    | .inf => true
    | _ => false

/-- Line 243. -/
def standard_cols : List String :=
  ["word", "meaning", "sentiment", "explanation", "intensity", "source_sentences", "prompt_type"]

/-- Append a synthesized column. -/
def addCol (fr : CsvFrame) (name : String) (f : List Cell → Cell) : CsvFrame :=
  { cols := fr.cols ++ [name], rows := fr.rows.map (fun r => r ++ [f r]) }

/-- Lines 244-255: one iteration of the standard-column loop: a missing
`intensity` is sourced from `rating` (already coerced to int), a missing
`source_sentences` from `example`, any other missing column defaults to
the empty string. -/
def ensureStdStep (fr : CsvFrame) (col : String) : CsvFrame :=
  if fr.cols.contains col then fr
  else if col = "intensity" && fr.cols.contains "rating" then
    addCol fr "intensity" (fun r => Cell.i (toNumericInt (getCell fr.cols r "rating")))
  else if col = "source_sentences" && fr.cols.contains "example" then
    addCol fr "source_sentences" (fun r => getCell fr.cols r "example")
  else addCol fr col (fun _ => Cell.s "")

/-- Lines 244-255: ensure every standard column exists. -/
def ensureStd (fr : CsvFrame) : CsvFrame :=
  standard_cols.foldl ensureStdStep fr

/-- A cleaned lexicon entry (the typed view of a row after the
line 258-264 coercions; cells read from CSV text are never `NaN`, so the
`fillna` calls are the identity here, which is also why the
`prompt_type` default of that line never fires on this path). -/
structure LexRow where
  word : String
  meaning : String
  sentiment : String
  explanation : String
  intensity : Int
  source_sentences : String
  prompt_type : String
deriving DecidableEq, Inhabited

/-- Lines 258-264 for one row. -/
def extractRow (cols : List String) (r : List Cell) : LexRow :=
  { word := cellStr (getCell cols r "word")
    meaning := cellStr (getCell cols r "meaning")
    sentiment := cellStr (getCell cols r "sentiment")
    explanation := cellStr (getCell cols r "explanation")
    intensity := toNumericInt (getCell cols r "intensity")
    source_sentences := cellStr (getCell cols r "source_sentences")
    prompt_type := cellStr (getCell cols r "prompt_type") }

/-- Lines 185-239 composed: read, normalise column names, word-column
selection and rename. -/
def wordFrameOf (content : List (List String)) : CsvFrame :=
  match findWordCol (normalize_column_names (read_csv_manually content)).cols with
  | some w => renameWordCol (normalize_column_names (read_csv_manually content)) w
  | none => normalize_column_names (read_csv_manually content)

/-- Lines 185-255 composed: the word frame with the standard columns
ensured. -/
def stdFrameOf (content : List (List String)) : CsvFrame :=
  ensureStd (wordFrameOf content)

/-- Whether the intensity coercion raises `IntCastingNaNError` on this
frame (the frame entering the standard-column loop): with an `intensity`
column present, line 262 coerces it; with `intensity` missing and
`rating` present, line 248 coerces `rating` (the re-coercion of the
resulting integer column at line 262 cannot raise); with both missing,
line 262 coerces the synthesized empty strings, which are `NaN` and are
filled with 0.  The standard-column loop never adds a column named
`intensity` or `rating` before reaching the `intensity` step, so testing
the incoming frame is the same as testing at that step. -/
def ingestRaises (fr : CsvFrame) : Bool :=
  if fr.cols.contains "intensity" then
    fr.rows.any (fun r => cellInf (getCell fr.cols r "intensity"))
  else if fr.cols.contains "rating" then
    fr.rows.any (fun r => cellInf (getCell fr.cols r "rating"))
  else false

/-- The raise condition of lines 248/262 for this source content; when it
holds, the exception is caught at line 294 and ingestion fails. -/
def ingestRaisesOf (content : List (List String)) : Bool :=
  ingestRaises (wordFrameOf content)

/-- The typed rows of the standardised frame. -/
def typedRowsOf (content : List (List String)) : List LexRow :=
  (stdFrameOf content).rows.map (extractRow (stdFrameOf content).cols)

/-- Lines 267-269: label each row with its pandas `RangeIndex` position
and drop rows whose word strips to empty.  When the intensity coercion
raises (lines 248/262), control never reaches the filter: no cleaned
rows exist. -/
def cleanedOf (content : List (List String)) : List (Nat × LexRow) :=
  if ingestRaisesOf content then []
  else
    ((List.range (typedRowsOf content).length).zip (typedRowsOf content)).filter
      (fun p => pyStrip p.2.word != "")

/-- Line 18. -/
def WORDS_TO_SHOW : Nat := 18

/-- Line 289. -/
def shortfallMsg (k n : Nat) : String :=
  "Lexicon contains only " ++ toString k ++ " words (less than requested " ++
    toString n ++ "). Using all available words."

/-- Line 286. -/
def selectedMsg (n : Nat) : String :=
  "Randomly selected " ++ toString n ++ " words."

/-- The result of `load_lexicon`: the sampled rows keyed by their pandas
index label, the `st.session_state.lexicon_error` value, and the
selection-stage notices (other `st.info`/`st.write` calls are
presentation and not tracked). -/
structure LoadResult where
  sample : List (Nat × LexRow)
  err : Option String
  msgs : List String
deriving DecidableEq

/-- Lines 169-298.  `sampler n k` models `random.sample(range(n), k)`
(the source only calls it with `k ≤ n`).  File resolution is external:
the embedding starts from the csv-tokenised content of an existing file.
When the manual reader extracts no data rows the source falls back to
`pd.read_csv`; on content whose data rows are all blank that fallback is
empty as well (pandas skips blank lines), so the path is modelled as the
corresponding error.  In the sampling branch `df.iloc` positions are
looked up with `getElem?`; under the `random.sample` contract every
position is in range.  `reset_index(drop=True)` relabels the sampled
rows from 0; the keep-all branch keeps the post-filter labels.  A
non-finite intensity (or rating, line 248) value makes `astype(int)`
raise `IntCastingNaNError`; the handler at line 294 records the error
and returns an empty frame. -/
def load_lexicon (sampler : Nat → Nat → List Nat) (num_words : Nat)
    (content : List (List String)) : LoadResult :=
  let fr0 := read_csv_manually content
  if fr0.rows.isEmpty then
    { sample := [], err := some "could not parse any data rows", msgs := [] }
  else
    match findWordCol (normalize_column_names fr0).cols with
    | none => { sample := [], err := some "CSV file has no columns.", msgs := [] }
    | some _ =>
      if ingestRaisesOf content then
        { sample := []
          err := some ("Error loading lexicon: Cannot convert non-finite values " ++
            "(NA or inf) to integer")
          msgs := [] }
      else
      let cleaned := cleanedOf content
      if cleaned.isEmpty then
        { sample := [], err := some "No valid words found after cleaning.", msgs := [] }
      else if num_words ≤ cleaned.length then
        let sel := sampler cleaned.length num_words
        let picked := sel.filterMap (fun idx => cleaned[idx]?)
        { sample := (List.range picked.length).zip (picked.map Prod.snd)
          err := none
          msgs := [selectedMsg num_words] }
      else
        { sample := cleaned, err := none, msgs := [shortfallMsg cleaned.length num_words] }

/-! ## Answer form and records (lines 753-849) -/

/-- One stored judgment (lines 835-848); optional free-text fields are
`Option String` because the source stores `None`, not `""`, for them. -/
structure AnswerRecord where
  word : String
  meaning_correct : String
  meaning_fix : Option String
  word_sentiment : String
  system_understands : String
  understanding_correction : Option String
  different_context : String
  context_explanation : Option String
  system_sentiment : String
  system_intensity : Int
  prompt_type : String
  example_sentence : Option String
  timestamp : String
deriving DecidableEq, Inhabited

/-- The widget values a submission carries.  Radio widgets (`q1`, `q3`,
`q5`, `q7`) always hold one of their options; text widgets default to
the empty string.  `q5`/`q6`/`q8` are only rendered under the conditions
of lines 787-823; `buildAnswer` applies those conditions, so the fields
here are the values the widgets would have had. -/
structure FormInput where
  q1 : String
  q2 : String
  q3 : String
  q5 : String
  q6 : String
  q7 : String
  q8 : String
deriving DecidableEq, Inhabited

/-- Lines 732-741 and 786-849: derive the system-analysis values for a
word, evaluate the conditional question widgets, and assemble the
`answer_data` dictionary. -/
def buildAnswer (jp : String → Option (List PyVal)) (le : String → Option PyVal)
    (row : LexRow) (inp : FormInput) (ts : String) : AnswerRecord :=
  let system_sentiment := pyStrip row.sentiment
  let example_sentence := example_sentence_of jp le row.source_sentences
  let q5v := if example_sentence ≠ "" then inp.q5 else "N/A - No Example"
  let q6v :=
    if example_sentence ≠ "" then (if q5v ≠ "Yes" then inp.q6 else "")
    else ""
  let q8v := if inp.q7 = "Yes" then inp.q8 else ""
  { word := row.word
    meaning_correct := inp.q1
    meaning_fix := if inp.q2 = "" then none else some (pyStrip inp.q2)
    word_sentiment := inp.q3
    system_understands := q5v
    understanding_correction := if q6v = "" then none else some (pyStrip q6v)
    different_context := inp.q7
    context_explanation := if q8v = "" then none else some (pyStrip q8v)
    system_sentiment := system_sentiment
    system_intensity := row.intensity
    prompt_type := row.prompt_type
    example_sentence := if example_sentence = "" then none else some example_sentence
    timestamp := ts }

/-! ## `save_answers` (lines 325-366) and the validation submit step -/

/-- One durable row of the per-language answer log: the answers augmented
with `participant_id` and `language` (lines 336-349). -/
structure StoredAnswer where
  participant_id : String
  language : String
  answer : AnswerRecord
deriving DecidableEq

/-- Lines 325-366.  `appendOk` models whether the `to_csv` append
completed (the `except` branch returns `False`); the log list models the
per-language answer file, which an append extends atomically or leaves
untouched.  An empty answer list writes nothing and reports failure
(lines 327-329). -/
def save_answers (answers_list : List AnswerRecord) (lang pid : String)
    (appendOk : Bool) (log : List StoredAnswer) : Bool × List StoredAnswer :=
  if answers_list.isEmpty then (false, log)
  else if appendOk then
    (true, log ++ answers_list.map (fun a => { participant_id := pid, language := lang, answer := a }))
  else (false, log)

/-- The Streamlit session state consumed by the validation stage, plus
the durable answer log for the selected language. -/
structure SessionState where
  user_language : String
  participant_id : String
  word_df : List (Nat × LexRow)
  word_indices : List Nat
  current_word_idx_position : Nat
  user_answers : List AnswerRecord
  form_key : Nat
  answersLog : List StoredAnswer
deriving DecidableEq

/-- Line 720: the pandas label of the word currently rendered. -/
def renderedLabel (st : SessionState) : Option Nat :=
  st.word_indices[st.current_word_idx_position]?

/-- Lines 720-721: the entry currently rendered
(`word_df.loc[word_indices[position]]`). -/
def renderedEntry (st : SessionState) : Option LexRow :=
  (renderedLabel st).bind (fun lbl => (st.word_df.find? (fun p => p.1 == lbl)).map Prod.snd)

/-- Line 868. -/
def saveErrMsg : String :=
  "Error saving your answer for this word. Please try submitting again."

/-- Lines 830-869: the submit handler.  The answer is built from the
rendered entry (the stage guarantees the label resolves; `getD default`
keeps the model total), buffered into `user_answers`, and saved
immediately through `save_answers`.  On reported success the cursor and
form key advance; on failure the state is left in place and a retryable
error is surfaced.  Returns the new state, the save outcome, and the
surfaced error if any. -/
def submitStep (jp : String → Option (List PyVal)) (le : String → Option PyVal)
    (inp : FormInput) (ts : String) (appendOk : Bool) (st : SessionState) :
    SessionState × Bool × Option String :=
  let row := (renderedEntry st).getD default
  let ans := buildAnswer jp le row inp ts
  let st1 := { st with user_answers := st.user_answers ++ [ans] }
  let res := save_answers [ans] st.user_language st.participant_id appendOk st1.answersLog
  if res.1 then
    ({ st1 with
        current_word_idx_position := st1.current_word_idx_position + 1
        form_key := st1.form_key + 1
        answersLog := res.2 }, true, none)
  else
    ({ st1 with answersLog := res.2 }, false, some saveErrMsg)

/-- Lines 688-696: materialise the session after a successful lexicon
load: store the sample, shuffle a copy of its index
(`indices = list(df.index); random.shuffle(indices)` -- `shuffler`
models `random.shuffle`, contractually a permutation), reset the cursor
and the answer buffer.  `log0` is the pre-existing durable answer log. -/
def startSession (shuffler : List Nat → List Nat) (lang pid : String)
    (sample : List (Nat × LexRow)) (log0 : List StoredAnswer) : SessionState :=
  { user_language := lang
    participant_id := pid
    word_df := sample
    word_indices := shuffler (sample.map Prod.fst)
    current_word_idx_position := 0
    user_answers := []
    form_key := 0
    answersLog := log0 }

/-! ## Concrete inputs used by witnesses and counterexamples -/

/-- Concrete rows exercising the row repair: one short row (padded), one
long row (truncated), one all-blank row (skipped), one exact row. -/
def c7rows : List (List String) := [["a"], ["a", "b", "c", "d"], ["", " "], ["x", "y", "z"]]

/-- A lexicon row with no example sentence. -/
def c4row : LexRow :=
  { word := "lerato", meaning := "love", sentiment := "Positive", explanation := ""
    intensity := 2, source_sentences := "", prompt_type := "Unknown" }

/-- A form submission for a word with no example sentence. -/
def c4inp : FormInput :=
  { q1 := "Yes", q2 := "", q3 := "Positive", q5 := "Yes", q6 := "", q7 := "No", q8 := "" }

/-- An all-blank-optionals submission answering `"No"` to the
different-context question. -/
def c5inp : FormInput :=
  { q1 := "Yes", q2 := "", q3 := "Neutral", q5 := "No", q6 := "", q7 := "No", q8 := "" }

/-- A one-word session state for exercising the submit handler. -/
def c1state : SessionState :=
  { user_language := "sotho", participant_id := "p", word_df := [(0, default)]
    word_indices := [0], current_word_idx_position := 0, user_answers := []
    form_key := 0, answersLog := [] }

/-- A `random.sample` instance satisfying the contract: the first `k`
positions. -/
def natRangeSampler : Nat → Nat → List Nat := fun _ k => List.range k

/-- A two-valid-row lexicon source. -/
def c2content : List (List String) := [["word"], ["a"], ["b"]]

/-- A source table whose intensity value `"3.7"` is not parsable as an
integer. -/
def c6content : List (List String) := [["word", "intensity"], ["lerato", "3.7"]]

/-- A source table with a non-numeric intensity value. -/
def c6wcontent : List (List String) := [["word", "intensity"], ["pelo", "abc"]]

/-- The sampled row `load_lexicon` produces for `c6wcontent`. -/
def c6wrow : LexRow :=
  { word := "pelo", meaning := "", sentiment := "", explanation := ""
    intensity := 0, source_sentences := "", prompt_type := "" }

/-- A three-valid-row lexicon source. -/
def c8content : List (List String) := [["word"], ["a"], ["b"], ["c"]]

/-- An `ast.literal_eval` instance for the set literal: Python parses
"\x7b1, 2\x7d" as the set of 1 and 2 (a dict needs colons), per the
library's documented behaviour on set displays. -/
def litEvalSet : String → Option PyVal :=
  fun t => if t = "\x7b1, 2\x7d" then some (.pset [.pint 1, .pint 2]) else none

/-- Whether a value is one of the three shapes the claim allows for
`safe_literal_eval`'s result on input `s`: a parsed list, a parsed dict,
or the original string. -/
def isListDictOrInput (v : PyVal) (s : String) : Bool :=
  match v with
  | .plist _ => true
  | .pdict _ => true
  | .pstr t => t == s
  | _ => false

/-! ## Helper lemmas -/

/-- Every repaired row has exactly the header's field count. -/
theorem fitRow_length (e : Nat) (r : List String) : (fitRow e r).length = e := by
  unfold fitRow
  split
  · simp only [List.length_append, List.length_replicate]
    omega
  · simp only [List.length_take]
    omega

/-- The row-repair loop keeps exactly the non-blank rows, each repaired. -/
theorem readCsvLoop_fst (e : Nat) (rows : List (List String)) :
    (readCsvLoop e rows).1 = (rows.filter (fun r => !rowBlank r)).map (fitRow e) := by
  induction rows with
  | nil => rfl
  | cons r rest ih =>
    by_cases hb : rowBlank r
    · simp [readCsvLoop, hb, List.filter_cons, ih]
    · simp only [readCsvLoop, hb, if_false, List.filter_cons, Bool.not_false, if_true,
        List.map_cons, Bool.false_eq_true]
      split
      next heq => simp [fitRow, heq, ih]
      next hne =>
        split
        next hlt => simp [fitRow, Nat.le_of_lt hlt, ih]
        next hge =>
          simp only [fitRow, List.map_cons, ih]
          rw [if_neg (by omega)]

/-- The repaired-row counter counts exactly the kept rows whose field
count differed from the header's. -/
theorem readCsvLoop_snd (e : Nat) (rows : List (List String)) :
    (readCsvLoop e rows).2 =
      ((rows.filter (fun r => !rowBlank r)).filter (fun r => r.length != e)).length := by
  induction rows with
  | nil => rfl
  | cons r rest ih =>
    by_cases hb : rowBlank r
    · simp [readCsvLoop, hb, List.filter_cons, ih]
    · simp only [readCsvLoop, hb, if_false, List.filter_cons, Bool.not_false, if_true,
        Bool.false_eq_true]
      split
      next heq => simp [heq, ih]
      next hne =>
        split
        next hlt => simp [List.filter_cons, (by simpa using hne : (r.length != e) = true), ih]
        next hge => simp [List.filter_cons, (by simpa using hne : (r.length != e) = true), ih]

/-- A word column can fail to be found only in a column-less frame. -/
theorem findWordCol_eq_none {cols : List String} (h : findWordCol cols = none) :
    cols = [] := by
  unfold findWordCol at h
  rcases hf : possible_word_cols.find? (fun c => cols.contains c) with _ | c
  · rw [hf] at h
    rcases hfl : cols.filter (fun c => pyContains c "word") with _ | ⟨c, cs⟩
    · rw [hfl] at h
      exact List.head?_eq_none_iff.mp h
    · rw [hfl] at h
      exact absurd h (by simp)
  · rw [hf] at h
    exact absurd h (by simp)

/-- Renaming never touches the rows. -/
theorem renameWordCol_rows (fr : CsvFrame) (w : String) :
    (renameWordCol fr w).rows = fr.rows := by
  unfold renameWordCol
  split <;> rfl

/-- The standard-column loop never changes the number of rows; in
particular an empty frame stays empty. -/
theorem foldl_ensureStdStep_rows_nil (l : List String) :
    ∀ fr : CsvFrame, fr.rows = [] → (l.foldl ensureStdStep fr).rows = [] := by
  induction l with
  | nil => intro fr h; simpa using h
  | cons c cs ih =>
    intro fr h
    rw [List.foldl_cons]
    apply ih
    unfold ensureStdStep
    split
    · exact h
    · split
      · simp [addCol, h]
      · split
        · simp [addCol, h]
        · simp [addCol, h]

/-- If the manual reader produced no data rows, cleaning produces no rows. -/
theorem cleanedOf_nil_of_rows_nil {content : List (List String)}
    (h : (read_csv_manually content).rows = []) : cleanedOf content = [] := by
  have h1 : (normalize_column_names (read_csv_manually content)).rows = [] := h
  have h2 : (stdFrameOf content).rows = [] := by
    unfold stdFrameOf ensureStd
    apply foldl_ensureStdStep_rows_nil
    unfold wordFrameOf
    rcases hw : findWordCol (normalize_column_names (read_csv_manually content)).cols with _ | w
    · simp only [hw]
      exact h1
    · simp only [hw, renameWordCol_rows]
      exact h1
  have h3 : typedRowsOf content = [] := by
    unfold typedRowsOf
    rw [h2]
    rfl
  unfold cleanedOf
  split
  · rfl
  · rw [h3]
    rfl

/-- Rows kept by the repair loop all carry the expected field count. -/
theorem readCsvLoop_row_length (e : Nat) (rows : List (List String)) :
    ∀ r ∈ (readCsvLoop e rows).1, r.length = e := by
  intro r hr
  rw [readCsvLoop_fst] at hr
  obtain ⟨r1, _, hEq⟩ := List.mem_map.mp hr
  rw [← hEq]
  exact fitRow_length _ _

/-- On a column-less frame of empty rows, standardisation synthesizes an
empty word for every row. -/
theorem word_empty_of_nil_cols (rows : List (List Cell)) (hall : ∀ r ∈ rows, r = []) :
    ∀ lr ∈ (ensureStd { cols := [], rows := rows }).rows.map
        (extractRow (ensureStd { cols := [], rows := rows }).cols), lr.word = "" := by
  intro lr hlr
  rw [show ensureStd { cols := [], rows := rows } =
      ({ cols := ["word", "meaning", "sentiment", "explanation", "intensity",
                  "source_sentences", "prompt_type"]
         rows := ((((((rows.map (fun r => r ++ [Cell.s ""])).map (fun r => r ++ [Cell.s ""])).map
          (fun r => r ++ [Cell.s ""])).map (fun r => r ++ [Cell.s ""])).map
          (fun r => r ++ [Cell.s ""])).map (fun r => r ++ [Cell.s ""])).map
          (fun r => r ++ [Cell.s ""]) } : CsvFrame) from rfl] at hlr
  simp only [List.map_map] at hlr
  obtain ⟨r, hr, hEq⟩ := List.mem_map.mp hlr
  rw [hall r hr] at hEq
  rw [← hEq]
  rfl

/-- If no word column is found (only possible with no columns at all),
every cleaned row is dropped. -/
theorem cleanedOf_nil_of_no_word_col {content : List (List String)}
    (h : findWordCol (normalize_column_names (read_csv_manually content)).cols = none) :
    cleanedOf content = [] := by
  have hcols : (normalize_column_names (read_csv_manually content)).cols = [] :=
    findWordCol_eq_none h
  have hall : ∀ r ∈ (normalize_column_names (read_csv_manually content)).rows,
      r = ([] : List Cell) := by
    cases content with
    | nil =>
      intro r hr
      simp [read_csv_manually, normalize_column_names] at hr
    | cons header rest =>
      have hh : header = [] := by
        have hm : header.map (fun c => pyStrip (strLower c)) = [] := hcols
        exact List.map_eq_nil_iff.mp hm
      intro r hr
      simp only [normalize_column_names, read_csv_manually] at hr
      obtain ⟨r0, hr0, hEq⟩ := List.mem_map.mp hr
      have hlen : r0.length = header.length := readCsvLoop_row_length _ _ r0 hr0
      rw [hh] at hlen
      simp only [List.length_nil] at hlen
      rw [← hEq, List.eq_nil_of_length_eq_zero hlen]
      rfl
  have hwords : ∀ lr ∈ typedRowsOf content, lr.word = "" := by
    intro lr hlr
    unfold typedRowsOf stdFrameOf wordFrameOf at hlr
    simp only [h] at hlr
    have hfr : normalize_column_names (read_csv_manually content) =
        { cols := [], rows := (normalize_column_names (read_csv_manually content)).rows } := by
      rw [← hcols]
    rw [hfr] at hlr
    exact word_empty_of_nil_cols _ hall lr hlr
  unfold cleanedOf
  split
  · rfl
  · rw [List.filter_eq_nil_iff]
    intro p hp
    obtain ⟨i, lr⟩ := p
    have hm : lr ∈ typedRowsOf content := (List.of_mem_zip hp).2
    rw [hwords lr hm]
    decide

/-- When the intensity coercion raises, the cleaning stage is never
reached: no cleaned rows exist. -/
theorem cleanedOf_nil_of_raise {content : List (List String)}
    (h : ingestRaisesOf content = true) : cleanedOf content = [] := by
  unfold cleanedOf
  rw [h]
  rfl

/-- With at least one cleaned row, the coercion did not raise. -/
theorem ingestRaisesOf_false_of_ne_nil {content : List (List String)}
    (hne : cleanedOf content ≠ []) : ingestRaisesOf content = false := by
  cases h : ingestRaisesOf content with
  | false => rfl
  | true => exact absurd (cleanedOf_nil_of_raise h) hne

/-- The cleaning filter, unguarded, when the coercion did not raise. -/
theorem cleanedOf_of_not_raise {content : List (List String)}
    (h : ingestRaisesOf content = false) :
    cleanedOf content =
      ((List.range (typedRowsOf content).length).zip (typedRowsOf content)).filter
        (fun p => pyStrip p.2.word != "") := by
  unfold cleanedOf
  rw [h]
  rfl

/-- With no cleaned rows, every branch of `load_lexicon` yields an empty
sample. -/
theorem load_lexicon_sample_nil {sampler : Nat → Nat → List Nat} {nw : Nat}
    {content : List (List String)} (hne : cleanedOf content = []) :
    (load_lexicon sampler nw content).sample = [] := by
  rcases hw : findWordCol (normalize_column_names (read_csv_manually content)).cols with _ | w
  · simp only [load_lexicon, hw]
    split <;> rfl
  · simp only [load_lexicon, hw, hne, List.isEmpty_nil, if_true]
    split
    · rfl
    · split <;> rfl

/-- With at least one cleaned row, `load_lexicon` reaches the selection
stage: either the sampled branch or the keep-all branch. -/
theorem load_lexicon_branches (sampler : Nat → Nat → List Nat) (nw : Nat)
    (content : List (List String)) (hne : cleanedOf content ≠ []) :
    load_lexicon sampler nw content =
      if nw ≤ (cleanedOf content).length then
        { sample :=
            (List.range ((sampler (cleanedOf content).length nw).filterMap
                (fun idx => (cleanedOf content)[idx]?)).length).zip
              (((sampler (cleanedOf content).length nw).filterMap
                (fun idx => (cleanedOf content)[idx]?)).map Prod.snd)
          err := none
          msgs := [selectedMsg nw] }
      else
        { sample := cleanedOf content
          err := none
          msgs := [shortfallMsg (cleanedOf content).length nw] } := by
  have hrows : (read_csv_manually content).rows.isEmpty = false := by
    rw [List.isEmpty_eq_false]
    intro h0
    exact hne (cleanedOf_nil_of_rows_nil h0)
  obtain ⟨w, hw⟩ :
      ∃ w, findWordCol (normalize_column_names (read_csv_manually content)).cols = some w := by
    rcases hw0 : findWordCol (normalize_column_names (read_csv_manually content)).cols with _ | w
    · exact absurd (cleanedOf_nil_of_no_word_col hw0) hne
    · exact ⟨w, rfl⟩
  have hcl : (cleanedOf content).isEmpty = false := by
    rw [List.isEmpty_eq_false]
    exact hne
  have hir : ingestRaisesOf content = false := ingestRaisesOf_false_of_ne_nil hne
  simp only [load_lexicon, hrows, hw, hir, hcl, Bool.false_eq_true, if_false]

/-- Looking up in-range positions with `getElem?` drops nothing. -/
theorem filterMap_getElem_length {α : Type} (sel : List Nat) (l : List α)
    (h : ∀ i ∈ sel, i < l.length) :
    (sel.filterMap (fun idx => l[idx]?)).length = sel.length := by
  induction sel with
  | nil => rfl
  | cons i is ih =>
    have hi : i < l.length := h i (List.mem_cons_self i is)
    simp only [List.filterMap_cons, List.getElem?_eq_getElem hi, List.length_cons]
    rw [ih (fun j hj => h j (List.mem_cons_of_mem i hj))]

/-- Every value produced by a `getElem?` lookup is a member. -/
theorem mem_of_mem_filterMap_getElem {α : Type} {sel : List Nat} {l : List α} {a : α}
    (h : a ∈ sel.filterMap (fun idx => l[idx]?)) : a ∈ l := by
  obtain ⟨i, _hi, h2⟩ := List.mem_filterMap.mp h
  exact List.getElem?_mem h2

/-- Every sampled entry carries a row of the cleaned lexicon. -/
theorem sample_snd_mem {sampler : Nat → Nat → List Nat} {nw : Nat}
    {content : List (List String)} {p : Nat × LexRow}
    (hp : p ∈ (load_lexicon sampler nw content).sample) :
    p.2 ∈ (cleanedOf content).map Prod.snd := by
  by_cases hne : cleanedOf content = []
  · rw [load_lexicon_sample_nil hne] at hp
    exact absurd hp (List.not_mem_nil p)
  · rw [load_lexicon_branches sampler nw content hne] at hp
    obtain ⟨a, b⟩ := p
    split at hp
    · dsimp only at hp
      have hb := (List.of_mem_zip hp).2
      obtain ⟨q, hq, hEq⟩ := List.mem_map.mp hb
      have hqm : q ∈ cleanedOf content := mem_of_mem_filterMap_getElem hq
      have hq2 : q.2 ∈ (cleanedOf content).map Prod.snd := List.mem_map_of_mem Prod.snd hqm
      rw [hEq] at hq2
      exact hq2
    · dsimp only at hp
      exact List.mem_map_of_mem Prod.snd hp

/-- The index labels of a loaded sample are pairwise distinct. -/
theorem sample_labels_nodup (sampler : Nat → Nat → List Nat) (nw : Nat)
    (content : List (List String)) :
    ((load_lexicon sampler nw content).sample.map Prod.fst).Nodup := by
  by_cases hne : cleanedOf content = []
  · rw [load_lexicon_sample_nil hne]
    exact List.nodup_nil
  · rw [load_lexicon_branches sampler nw content hne]
    split
    · dsimp only
      generalize (sampler (cleanedOf content).length nw).filterMap
          (fun idx => (cleanedOf content)[idx]?) = picked
      rw [List.map_fst_zip _ _ (by simp)]
      exact List.nodup_range _
    · dsimp only
      rw [cleanedOf_of_not_raise (ingestRaisesOf_false_of_ne_nil hne)]
      have hsub :
          ((((List.range (typedRowsOf content).length).zip (typedRowsOf content)).filter
            (fun p => pyStrip p.2.word != "")).map Prod.fst).Sublist
          ((((List.range (typedRowsOf content).length).zip (typedRowsOf content))).map Prod.fst) :=
        List.Sublist.map _ (List.filter_sublist _)
      rw [List.map_fst_zip _ _ (by simp)] at hsub
      exact hsub.nodup (List.nodup_range _)

/-- A character-level fact about the escaped-quote normalisation: it
cannot create a leading `[`. -/
theorem isPrefixOf_lbrack_cons (c : Char) (l : List Char) :
    (['['].isPrefixOf (c :: l)) = ('[' == c) := by
  simp [List.isPrefixOf]

/-- The `processed_val` of `safe_literal_eval` starts with `[` only if
the original value does. -/
theorem pyReplace_esc_head {s : String} (h : pyStartsWith s "[" = false) :
    pyStartsWith (pyReplace s "\\\"" "\"") "[" = false := by
  unfold pyReplace
  rw [if_neg (by decide)]
  unfold pyStartsWith at h ⊢
  rcases hd : s.data with _ | ⟨c, rest⟩
  · rfl
  · rw [show ("[" : String).data = ['['] from rfl] at h ⊢
    rw [hd] at h
    rw [isPrefixOf_lbrack_cons] at h
    show (['['].isPrefixOf
      (replaceAux ("\\\"" : String).data ("\"" : String).data (c :: rest).length (c :: rest))) = false
    rw [show (c :: rest).length = rest.length + 1 from rfl]
    rw [show replaceAux ("\\\"" : String).data ("\"" : String).data (rest.length + 1) (c :: rest) =
        if ("\\\"" : String).data.isPrefixOf (c :: rest) then
          ("\"" : String).data ++
            replaceAux ("\\\"" : String).data ("\"" : String).data rest.length
              ((c :: rest).drop ("\\\"" : String).data.length)
        else c :: replaceAux ("\\\"" : String).data ("\"" : String).data rest.length rest
      from rfl]
    split
    · rw [show ("\"" : String).data = ['"'] from rfl, List.singleton_append,
        isPrefixOf_lbrack_cons]
      decide
    · rw [isPrefixOf_lbrack_cons]
      exact h

/-- `getLast?` skips past the head of a list with a non-empty tail. -/
theorem getLast?_cons_ne {α : Type} (a : α) {l : List α} (h : l ≠ []) :
    (a :: l).getLast? = l.getLast? := by
  cases l with
  | nil => exact absurd rfl h
  | cons b bs => exact List.getLast?_cons_cons

/-- A one-character suffix test is a `getLast?` test. -/
theorem singleton_isSuffixOf_iff (c : Char) (l : List Char) :
    [c].isSuffixOf l = true ↔ l.getLast? = some c := by
  unfold List.isSuffixOf
  rw [show ([c] : List Char).reverse = [c] from rfl, ← List.head?_reverse]
  cases hr : l.reverse with
  | nil => simp [List.isPrefixOf]
  | cons b bs =>
    simp only [List.isPrefixOf, List.head?_cons, Option.some.injEq, Bool.and_true,
      beq_iff_eq]
    exact ⟨fun hcb => hcb.symm, fun hbc => hbc.symm⟩

/-- The negative direction of the suffix test. -/
theorem singleton_isSuffixOf_eq_false {c : Char} {l : List Char}
    (h : l.getLast? ≠ some c) : [c].isSuffixOf l = false := by
  cases hs : [c].isSuffixOf l with
  | false => rfl
  | true => exact absurd ((singleton_isSuffixOf_iff c l).mp hs) h

/-- Reading the suffix test negatively. -/
theorem getLast?_ne_of_isSuffixOf_eq_false {c : Char} {l : List Char}
    (h : [c].isSuffixOf l = false) : l.getLast? ≠ some c := by
  intro hl
  rw [(singleton_isSuffixOf_iff c l).mpr hl] at h
  exact absurd h (by decide)

/-- `replaceAux` on the empty list. -/
theorem replaceAux_nil (pat rep : List Char) (fuel : Nat) :
    replaceAux pat rep fuel [] = [] := by
  cases fuel <;> rfl

/-- One step of the escaped-quote normalisation. -/
theorem replaceAux_esc_cons (fuel : Nat) (c : Char) (rest : List Char) :
    replaceAux ("\\\"" : String).data ("\"" : String).data (fuel + 1) (c :: rest) =
      if ("\\\"" : String).data.isPrefixOf (c :: rest) then
        ("\"" : String).data ++
          replaceAux ("\\\"" : String).data ("\"" : String).data fuel
            ((c :: rest).drop ("\\\"" : String).data.length)
      else
        c :: replaceAux ("\\\"" : String).data ("\"" : String).data fuel rest := rfl

/-- The escaped-quote normalisation never empties a non-empty list. -/
theorem replaceAux_esc_ne_nil (fuel : Nat) {l : List Char} (hl : l ≠ []) :
    replaceAux ("\\\"" : String).data ("\"" : String).data fuel l ≠ [] := by
  cases l with
  | nil => exact absurd rfl hl
  | cons c rest =>
    cases fuel with
    | zero => exact List.cons_ne_nil c rest
    | succ fuel =>
      rw [replaceAux_esc_cons]
      split
      · exact List.cons_ne_nil _ _
      · exact List.cons_ne_nil _ _

/-- The escaped-quote normalisation cannot create a trailing `]`: it only
removes backslashes before quotes and ends its output either with a quote
or with a character of the input's tail. -/
theorem replaceAux_esc_getLast (fuel : Nat) :
    ∀ l : List Char, l.getLast? ≠ some ']' →
      (replaceAux ("\\\"" : String).data ("\"" : String).data fuel l).getLast? ≠
        some ']' := by
  induction fuel with
  | zero =>
    intro l h
    cases l with
    | nil => simp [replaceAux_nil]
    | cons c rest => exact h
  | succ fuel ih =>
    intro l h
    cases l with
    | nil => simp [replaceAux_nil]
    | cons c rest =>
      cases rest with
      | nil =>
        rw [replaceAux_esc_cons, if_neg (by simp [List.isPrefixOf]),
          replaceAux_nil]
        exact h
      | cons c2 rest2 =>
        by_cases hp : ("\\\"" : String).data.isPrefixOf (c :: c2 :: rest2)
        · rw [replaceAux_esc_cons, if_pos hp,
            show (c :: c2 :: rest2).drop ("\\\"" : String).data.length = rest2 from rfl]
          have hrest2 : rest2.getLast? ≠ some ']' := by
            cases rest2 with
            | nil => simp
            | cons d ds =>
              rw [getLast?_cons_ne c (List.cons_ne_nil c2 (d :: ds)),
                getLast?_cons_ne c2 (List.cons_ne_nil d ds)] at h
              exact h
          by_cases hnil :
              replaceAux ("\\\"" : String).data ("\"" : String).data fuel rest2 = []
          · rw [hnil]
            simp
          · rw [show ("\"" : String).data ++
                  replaceAux ("\\\"" : String).data ("\"" : String).data fuel rest2 =
                '"' :: replaceAux ("\\\"" : String).data ("\"" : String).data fuel rest2
                from rfl,
              getLast?_cons_ne _ hnil]
            exact ih rest2 hrest2
        · rw [replaceAux_esc_cons, if_neg hp,
            getLast?_cons_ne c (replaceAux_esc_ne_nil fuel (List.cons_ne_nil c2 rest2))]
          apply ih
          rw [getLast?_cons_ne c (List.cons_ne_nil c2 rest2)] at h
          exact h

/-- The `processed_val` of `safe_literal_eval` ends with `]` only if the
original value does. -/
theorem pyReplace_esc_last {s : String} (h : pyEndsWith s "]" = false) :
    pyEndsWith (pyReplace s "\\\"" "\"") "]" = false := by
  unfold pyReplace
  rw [if_neg (by decide)]
  unfold pyEndsWith at h ⊢
  rw [show ("]" : String).data = [']'] from rfl] at h ⊢
  rw [show (String.mk (replaceAux ("\\\"" : String).data ("\"" : String).data
      s.data.length s.data)).data =
    replaceAux ("\\\"" : String).data ("\"" : String).data s.data.length s.data from rfl]
  exact singleton_isSuffixOf_eq_false
    (replaceAux_esc_getLast s.data.length s.data (getLast?_ne_of_isSuffixOf_eq_false h))

/-- The intensity of an extracted row is the numeric coercion of its
intensity cell. -/
theorem extractRow_intensity (cols : List String) (r : List Cell) :
    (extractRow cols r).intensity = toNumericInt (getCell cols r "intensity") := by
  rfl

/-- A string cell whose pandas parse is `NaN` coerces to 0. -/
theorem toNumericInt_nan {v : String} (h : pandasNum v = NumParse.nan) :
    toNumericInt (Cell.s v) = 0 := by
  simp [toNumericInt, h]

/-- The string branch of `safe_literal_eval`, as an equation. -/
theorem safe_literal_eval_pstr (jp : String → Option (List PyVal))
    (le : String → Option PyVal) (val : String) :
    safe_literal_eval jp le (.pstr val) =
      if pyStrip val = "" then .pstr val
      else
        match (if pyStartsWith (pyReplace val "\\\"" "\"") "[" &&
                  pyEndsWith (pyReplace val "\\\"" "\"") "]" then
                 jp (if strHasChar (pyReplace val "\\\"" "\"") lbrace &&
                        strHasChar (pyReplace val "\\\"" "\"") rbrace then
                       brace_fixups (pyReplace val "\\\"" "\"")
                     else pyReplace val "\\\"" "\"")
               else none) with
        | some xs => .plist xs
        | none =>
          if (pyStartsWith val "[" && pyEndsWith val "]")
              || (pyStartsWith val "\x7b" && pyEndsWith val "\x7d") then
            match le val with
            | some v => v
            | none => .pstr val
          else .pstr val := rfl

/-! ## Claim theorems -/

/-- C7: every non-empty data row parsed by `read_csv_manually` is kept:
a short row is padded with empty strings to the header's field count, a
long row is truncated to it (so every kept row has exactly that count,
and no non-blank row is dropped -- the kept rows are exactly the
non-blank input rows, each repaired in place); the repaired-row counter
counts exactly the rows whose field count differed, and the repair
report is a single summary message carrying that count, emitted exactly
once when the count is positive and not at all when it is zero. -/
theorem C7_row_repair_total (header : List String) (rows : List (List String)) :
    (readCsvLoop header.length rows).1 =
      (rows.filter (fun r => !rowBlank r)).map (fitRow header.length)
    ∧ (∀ r ∈ (readCsvLoop header.length rows).1, r.length = header.length)
    ∧ (readCsvLoop header.length rows).2 =
      ((rows.filter (fun r => !rowBlank r)).filter (fun r => r.length != header.length)).length
    ∧ (readMsgs (header :: rows)).length ≤ 1
    ∧ ((readCsvLoop header.length rows).2 > 0 →
        readMsgs (header :: rows) =
          [repairMsg (readCsvLoop header.length rows).2 header.length])
    ∧ ((readCsvLoop header.length rows).2 = 0 → readMsgs (header :: rows) = []) := by
  refine ⟨readCsvLoop_fst _ _, readCsvLoop_row_length _ _, readCsvLoop_snd _ _, ?_, ?_, ?_⟩
  · show (if (readCsvLoop header.length rows).2 > 0 then
        [repairMsg (readCsvLoop header.length rows).2 header.length] else []).length ≤ 1
    split <;> simp
  · intro h
    show (if (readCsvLoop header.length rows).2 > 0 then
        [repairMsg (readCsvLoop header.length rows).2 header.length] else []) =
      [repairMsg (readCsvLoop header.length rows).2 header.length]
    rw [if_pos h]
  · intro h
    show (if (readCsvLoop header.length rows).2 > 0 then
        [repairMsg (readCsvLoop header.length rows).2 header.length] else []) = []
    rw [if_neg (by omega)]

/-- C7 witness: the repair equations evaluated on `c7rows` under a
three-column header. -/
theorem C7_row_repair_total_witness :
    (readCsvLoop (["h1", "h2", "h3"] : List String).length c7rows).1 =
      (c7rows.filter (fun r => !rowBlank r)).map (fitRow (["h1", "h2", "h3"] : List String).length)
    ∧ readMsgs (["h1", "h2", "h3"] :: c7rows) =
      [repairMsg (readCsvLoop (["h1", "h2", "h3"] : List String).length c7rows).2
        (["h1", "h2", "h3"] : List String).length] := by
  obtain ⟨h1, _, _, _, h5, _⟩ := C7_row_repair_total ["h1", "h2", "h3"] c7rows
  exact ⟨h1, h5 (by decide)⟩

/-- C10: `save_answers` called with an empty answer list writes nothing
and returns `False` -- failure, not trivial success -- leaving the
answer log untouched, whatever the append outcome flag would have been. -/
theorem C10_save_answers_empty_fails (lang pid : String) (appendOk : Bool)
    (log : List StoredAnswer) :
    save_answers [] lang pid appendOk log = (false, log) := rfl

/-- C9 (amended): `safe_literal_eval` is total on strings and never
raises -- every internal parser failure is caught and falls through to
the original value, including for strings that look like list or dict
literals but are syntactically invalid.  But the result is not confined
to a parsed list/dict or the original string: on a literal-shaped input
it returns whatever `ast.literal_eval` yields, which can also be a set,
a tuple, a number, etc. -/
theorem C9_safe_literal_eval_total (jp : String → Option (List PyVal))
    (le : String → Option PyVal) (s : String) :
    safe_literal_eval jp le (PyVal.pstr s) = PyVal.pstr s
    ∨ (∃ l, safe_literal_eval jp le (PyVal.pstr s) = PyVal.plist l)
    ∨ (∃ v, le s = some v ∧ safe_literal_eval jp le (PyVal.pstr s) = v) := by
  rw [safe_literal_eval_pstr]
  split
  · exact Or.inl rfl
  · split
    next xs _ => exact Or.inr (Or.inl ⟨xs, rfl⟩)
    next =>
      split
      · split
        next v hv => exact Or.inr (Or.inr ⟨v, hv, rfl⟩)
        next => exact Or.inl rfl
      · exact Or.inl rfl

/-- C9 counterexample: on the set-literal text `ast.literal_eval`
returns a SET, which `safe_literal_eval` passes on -- neither a parsed
list, nor a dict, nor the original string, so the claim's result
trichotomy is incomplete. -/
theorem C9_counterexample :
    safe_literal_eval noJson litEvalSet (PyVal.pstr "\x7b1, 2\x7d") =
      PyVal.pset [PyVal.pint 1, PyVal.pint 2]
    ∧ isListDictOrInput
        (safe_literal_eval noJson litEvalSet (PyVal.pstr "\x7b1, 2\x7d"))
        "\x7b1, 2\x7d" = false := ⟨rfl, rfl⟩

/-- C3 (amended): example-sentence decoding is deterministic (the
embedding is a pure function of the input string, so equal inputs give
equal results by construction) and never throws; but an input that is
not a well-formed list literal does NOT in general degrade to an empty
example: any input that is not bracket-delimited (neither `[...]` nor
`{...}` shaped, so neither parser accepts and the fallbacks return the
input) passes through unchanged as the example sentence -- raw-text
passthrough, empty only when the input itself is empty. -/
theorem C3_decode_raw_passthrough (jp : String → Option (List PyVal))
    (le : String → Option PyVal) (s : String)
    (h1 : (pyStartsWith s "[" && pyEndsWith s "]") = false)
    (h2 : (pyStartsWith s "\x7b" && pyEndsWith s "\x7d") = false) :
    example_sentence_of jp le s = s := by
  have hsafe : safe_literal_eval jp le (.pstr s) = .pstr s := by
    rw [safe_literal_eval_pstr]
    split
    · rfl
    · have hgate : (pyStartsWith (pyReplace s "\\\"" "\"") "[" &&
          pyEndsWith (pyReplace s "\\\"" "\"") "]") = false := by
        cases hs1 : pyStartsWith s "[" with
        | false => rw [pyReplace_esc_head hs1, Bool.false_and]
        | true =>
          rw [hs1, Bool.true_and] at h1
          rw [pyReplace_esc_last h1, Bool.and_false]
      simp only [hgate, h1, h2, Bool.false_or, Bool.or_false, if_false, Bool.false_eq_true]
  unfold example_sentence_of
  rw [hsafe]

/-- C3 counterexample: `"hello"` is not a well-formed list literal (it
is not even bracket-delimited), yet decoding yields `"hello"` itself as
the example sentence, not the empty "no example" value the claim
states. -/
theorem C3_counterexample :
    pyStartsWith "hello" "[" = false ∧ pyStartsWith "hello" "\x7b" = false
    ∧ example_sentence_of noJson noLit "hello" = "hello"
    ∧ ("hello" : String) ≠ "" := by
  exact ⟨by decide, by decide, by decide, by decide⟩

/-- C3 witness: the passthrough theorem evaluated at a plain-text input
and at a malformed bracket-opened input (`"[1"`). -/
theorem C3_decode_raw_passthrough_witness :
    example_sentence_of noJson noLit "plain text" = "plain text"
    ∧ example_sentence_of noJson noLit "[1" = "[1" :=
  ⟨C3_decode_raw_passthrough noJson noLit "plain text" (by decide) (by decide),
   C3_decode_raw_passthrough noJson noLit "[1" (by decide) (by decide)⟩

/-- C4 (amended): when a word's example sentence is absent (decodes to
the empty string), submitting the form is legal (the builder is total
and no validation rejects it) and the stored record carries the fixed
marker `"N/A - No Example"` -- not the bare `"N/A"` of the claim -- for
the system-understanding field, an absent value (`none`, never `""`)
for the understanding-correction field, and an absent example
snapshot. -/
theorem C4_no_example_fixed_marker (jp : String → Option (List PyVal))
    (le : String → Option PyVal) (row : LexRow) (inp : FormInput) (ts : String)
    (h : example_sentence_of jp le row.source_sentences = "") :
    (buildAnswer jp le row inp ts).system_understands = "N/A - No Example"
    ∧ (buildAnswer jp le row inp ts).understanding_correction = none
    ∧ (buildAnswer jp le row inp ts).example_sentence = none := by
  refine ⟨?_, ?_, ?_⟩ <;> simp [buildAnswer, h]

/-- C4 counterexample: for a word with an absent example sentence the
stored system-understanding value is `"N/A - No Example"`, which is not
the `"N/A"` the claim states. -/
theorem C4_counterexample :
    example_sentence_of noJson noLit c4row.source_sentences = ""
    ∧ (buildAnswer noJson noLit c4row c4inp "2025-01-01 00:00:00").system_understands =
        "N/A - No Example"
    ∧ ("N/A - No Example" : String) ≠ "N/A" := by
  exact ⟨by decide, by decide, by decide⟩

/-- C4 witness: the amended theorem evaluated at a concrete word with
no example sentence. -/
theorem C4_no_example_fixed_marker_witness :
    (buildAnswer noJson noLit c4row c4inp "t").system_understands = "N/A - No Example"
    ∧ (buildAnswer noJson noLit c4row c4inp "t").understanding_correction = none
    ∧ (buildAnswer noJson noLit c4row c4inp "t").example_sentence = none :=
  C4_no_example_fixed_marker noJson noLit c4row c4inp "t" (by decide)

/-- C5: every optional free-text field left blank (the empty widget
value) is stored as absent (`none`), never as the empty string; and
whenever the different-context answer is `"No"`, the context
elaboration is stored absent unconditionally (its widget is not even
rendered, so its value stays empty and is mapped to `none`). -/
theorem C5_blank_optionals_absent (jp : String → Option (List PyVal))
    (le : String → Option PyVal) (row : LexRow) (inp : FormInput) (ts : String) :
    (inp.q2 = "" → (buildAnswer jp le row inp ts).meaning_fix = none)
    ∧ (inp.q6 = "" → (buildAnswer jp le row inp ts).understanding_correction = none)
    ∧ (inp.q8 = "" → (buildAnswer jp le row inp ts).context_explanation = none)
    ∧ (inp.q7 = "No" → (buildAnswer jp le row inp ts).context_explanation = none) := by
  refine ⟨fun h => ?_, fun h => ?_, fun h => ?_, fun h => ?_⟩
  · simp [buildAnswer, h]
  · simp [buildAnswer, h]
  · simp [buildAnswer, h]
  · simp [buildAnswer, h, (by decide : ("No" : String) ≠ "Yes")]

/-- C5 witness: blank optional fields of a concrete submission are all
stored absent. -/
theorem C5_blank_optionals_absent_witness :
    (buildAnswer noJson noLit default c5inp "t").meaning_fix = none
    ∧ (buildAnswer noJson noLit default c5inp "t").understanding_correction = none
    ∧ (buildAnswer noJson noLit default c5inp "t").context_explanation = none := by
  obtain ⟨h1, h2, _, h4⟩ := C5_blank_optionals_absent noJson noLit default c5inp "t"
  exact ⟨h1 rfl, h2 rfl, h4 rfl⟩

/-- C1: in the Validation stage, the session cursor is incremented if
and only if the immediately preceding durable append of the submitted
answer reported success (which, for the non-empty single-answer list the
handler passes, is exactly the append outcome); on failure the cursor is
unchanged, the same word is re-rendered (the rendered entry is
untouched), a retryable error is surfaced, and the durable log is
unchanged; on success the durable log gains exactly that answer and no
error is surfaced. -/
theorem C1_cursor_iff_append_success (jp : String → Option (List PyVal))
    (le : String → Option PyVal) (inp : FormInput) (ts : String)
    (appendOk : Bool) (st : SessionState) :
    ((submitStep jp le inp ts appendOk st).1.current_word_idx_position =
        st.current_word_idx_position + 1 ↔ (submitStep jp le inp ts appendOk st).2.1 = true)
    ∧ (submitStep jp le inp ts appendOk st).2.1 = appendOk
    ∧ (appendOk = false →
        (submitStep jp le inp ts appendOk st).1.current_word_idx_position =
          st.current_word_idx_position
        ∧ renderedEntry (submitStep jp le inp ts appendOk st).1 = renderedEntry st
        ∧ (submitStep jp le inp ts appendOk st).2.2 = some saveErrMsg
        ∧ (submitStep jp le inp ts appendOk st).1.answersLog = st.answersLog)
    ∧ (appendOk = true →
        (submitStep jp le inp ts appendOk st).1.answersLog =
          st.answersLog ++
            [{ participant_id := st.participant_id, language := st.user_language
               answer := buildAnswer jp le ((renderedEntry st).getD default) inp ts }]
        ∧ (submitStep jp le inp ts appendOk st).2.2 = none) := by
  cases appendOk
  · have heq : submitStep jp le inp ts false st =
        ({ st with user_answers :=
            st.user_answers ++ [buildAnswer jp le ((renderedEntry st).getD default) inp ts] },
         false, some saveErrMsg) := rfl
    rw [heq]
    refine ⟨⟨?_, ?_⟩, rfl, fun _ => ⟨rfl, rfl, rfl, rfl⟩, ?_⟩
    · intro h
      dsimp only at h
      omega
    · intro h
      exact nomatch h
    · intro h
      exact absurd h (by decide)
  · have heq : submitStep jp le inp ts true st =
        ({ st with
            user_answers :=
              st.user_answers ++ [buildAnswer jp le ((renderedEntry st).getD default) inp ts]
            current_word_idx_position := st.current_word_idx_position + 1
            form_key := st.form_key + 1
            answersLog := st.answersLog ++
              [{ participant_id := st.participant_id, language := st.user_language
                 answer := buildAnswer jp le ((renderedEntry st).getD default) inp ts }] },
         true, none) := rfl
    rw [heq]
    refine ⟨⟨fun _ => rfl, fun _ => rfl⟩, rfl, ?_, fun _ => ⟨rfl, rfl⟩⟩
    intro h
    exact absurd h (by decide)

/-- C1 witness: a failed append leaves the cursor and surfaces the
retryable error; a successful append advances the cursor. -/
theorem C1_cursor_iff_append_success_witness :
    (submitStep noJson noLit default "t" false c1state).1.current_word_idx_position =
      c1state.current_word_idx_position
    ∧ (submitStep noJson noLit default "t" false c1state).2.2 = some saveErrMsg
    ∧ (submitStep noJson noLit default "t" true c1state).1.current_word_idx_position =
      c1state.current_word_idx_position + 1 := by
  obtain ⟨_, _, h3, _⟩ := C1_cursor_iff_append_success noJson noLit default "t" false c1state
  obtain ⟨h1t, _, _, _⟩ := C1_cursor_iff_append_success noJson noLit default "t" true c1state
  exact ⟨(h3 rfl).1, (h3 rfl).2.2.1, h1t.mpr rfl⟩

/-- C2: whenever cleaning leaves at least one valid row, `load_lexicon`
returns a sample of exactly `min WORDS_TO_SHOW validRowCount` rows with
no error recorded; when fewer than `WORDS_TO_SHOW` valid rows exist it
keeps them all and emits the shortfall notice non-fatally.  The sampler
is `random.sample` under its contract: on `k ≤ n` it returns `k`
distinct positions below `n` (uniformity of the draw is the library's
own guarantee and is not modelled). -/
theorem C2_sample_size (sampler : Nat → Nat → List Nat) (content : List (List String))
    (hs : ∀ n k, k ≤ n →
      (sampler n k).length = k ∧ (sampler n k).Nodup ∧ ∀ i ∈ sampler n k, i < n)
    (hne : cleanedOf content ≠ []) :
    (load_lexicon sampler WORDS_TO_SHOW content).sample.length =
      min WORDS_TO_SHOW (cleanedOf content).length
    ∧ (load_lexicon sampler WORDS_TO_SHOW content).err = none
    ∧ ((cleanedOf content).length < WORDS_TO_SHOW →
        (load_lexicon sampler WORDS_TO_SHOW content).sample = cleanedOf content
        ∧ (load_lexicon sampler WORDS_TO_SHOW content).msgs =
          [shortfallMsg (cleanedOf content).length WORDS_TO_SHOW]) := by
  by_cases hle : WORDS_TO_SHOW ≤ (cleanedOf content).length
  · obtain ⟨hlen, _, hbnd⟩ := hs (cleanedOf content).length WORDS_TO_SHOW hle
    have hplen : ((sampler (cleanedOf content).length WORDS_TO_SHOW).filterMap
        (fun idx => (cleanedOf content)[idx]?)).length = WORDS_TO_SHOW := by
      rw [filterMap_getElem_length _ _ (fun i hi => hbnd i hi), hlen]
    have hmin : min WORDS_TO_SHOW (cleanedOf content).length = WORDS_TO_SHOW :=
      Nat.min_eq_left hle
    have hload : load_lexicon sampler WORDS_TO_SHOW content =
        { sample :=
            (List.range ((sampler (cleanedOf content).length WORDS_TO_SHOW).filterMap
                (fun idx => (cleanedOf content)[idx]?)).length).zip
              (((sampler (cleanedOf content).length WORDS_TO_SHOW).filterMap
                (fun idx => (cleanedOf content)[idx]?)).map Prod.snd)
          err := none
          msgs := [selectedMsg WORDS_TO_SHOW] } := by
      rw [load_lexicon_branches sampler WORDS_TO_SHOW content hne, if_pos hle]
    have hsample : (load_lexicon sampler WORDS_TO_SHOW content).sample =
        (List.range ((sampler (cleanedOf content).length WORDS_TO_SHOW).filterMap
            (fun idx => (cleanedOf content)[idx]?)).length).zip
          (((sampler (cleanedOf content).length WORDS_TO_SHOW).filterMap
            (fun idx => (cleanedOf content)[idx]?)).map Prod.snd) := by
      rw [hload]
    rw [hmin]
    refine ⟨?_, by rw [hload], fun hlt => absurd hlt (by omega)⟩
    rw [hsample, List.length_zip, List.length_range, List.length_map, Nat.min_self, hplen]
  · have hmin : min WORDS_TO_SHOW (cleanedOf content).length = (cleanedOf content).length :=
      Nat.min_eq_right (by omega)
    have hload : load_lexicon sampler WORDS_TO_SHOW content =
        { sample := cleanedOf content
          err := none
          msgs := [shortfallMsg (cleanedOf content).length WORDS_TO_SHOW] } := by
      rw [load_lexicon_branches sampler WORDS_TO_SHOW content hne, if_neg hle]
    have hsample : (load_lexicon sampler WORDS_TO_SHOW content).sample = cleanedOf content := by
      rw [hload]
    rw [hmin]
    exact ⟨congrArg List.length hsample, by rw [hload], fun _ => ⟨hsample, by rw [hload]⟩⟩

/-- C2 witness: a two-row table yields all two rows, no error. -/
theorem C2_sample_size_witness :
    (load_lexicon natRangeSampler WORDS_TO_SHOW c2content).sample.length =
      min WORDS_TO_SHOW (cleanedOf c2content).length
    ∧ (load_lexicon natRangeSampler WORDS_TO_SHOW c2content).err = none
    ∧ (load_lexicon natRangeSampler WORDS_TO_SHOW c2content).sample = cleanedOf c2content := by
  obtain ⟨h1, h2, h3⟩ := C2_sample_size natRangeSampler c2content
    (fun n k hk => ⟨List.length_range k, List.nodup_range k,
      fun i hi => lt_of_lt_of_le (List.mem_range.mp hi) hk⟩)
    (by decide)
  exact ⟨h1, h2, (h3 (by decide)).1⟩

/-- C6 (amended): intensity is coerced per cell by
`to_numeric(errors="coerce").fillna(0).astype(int)` -- that is, parsed
as a number (decimal and exponent notation included) and truncated
toward zero, NOT parsed as an integer: only values the pandas parser
rejects outright (`NaN`) coerce to 0, while a non-finite value (`inf`)
makes `astype(int)` raise and fails the whole ingestion.  Every row of
the returned sample is the typed extraction of a standardised source
row, its intensity is exactly that coercion of the row's intensity
cell, and it is 0 whenever the cell is a string the parser rejects (in
particular when the source value was absent, the cell being the
synthesized empty string). -/
theorem C6_intensity_coercion (sampler : Nat → Nat → List Nat) (nw : Nat)
    (content : List (List String)) (p : Nat × LexRow)
    (hp : p ∈ (load_lexicon sampler nw content).sample) :
    ∃ r ∈ (stdFrameOf content).rows,
      p.2 = extractRow (stdFrameOf content).cols r
      ∧ p.2.intensity = toNumericInt (getCell (stdFrameOf content).cols r "intensity")
      ∧ (∀ v, getCell (stdFrameOf content).cols r "intensity" = Cell.s v →
          pandasNum v = NumParse.nan → p.2.intensity = 0) := by
  have hmem : p.2 ∈ (cleanedOf content).map Prod.snd := sample_snd_mem hp
  have hne : cleanedOf content ≠ [] := by
    intro h0
    rw [h0] at hmem
    simp at hmem
  obtain ⟨q, hq, hEq⟩ := List.mem_map.mp hmem
  rw [cleanedOf_of_not_raise (ingestRaisesOf_false_of_ne_nil hne)] at hq
  have hq2 : q.2 ∈ typedRowsOf content := by
    have hz := List.mem_of_mem_filter hq
    obtain ⟨a, b⟩ := q
    exact (List.of_mem_zip hz).2
  unfold typedRowsOf at hq2
  obtain ⟨r, hr, hEq2⟩ := List.mem_map.mp hq2
  refine ⟨r, hr, ?_, ?_, ?_⟩
  · rw [← hEq, ← hEq2]
  · rw [← hEq, ← hEq2]
    exact extractRow_intensity _ _
  · intro v hv hnan
    rw [← hEq, ← hEq2, extractRow_intensity, hv]
    exact toNumericInt_nan hnan

/-- C6 counterexample: the source intensity `"3.7"` -- unparsable as an
integer -- parses as the finite number 3.7, truncated to 3: it is stored
as 3, not the 0 the claim requires for values unparsable as integers. -/
theorem C6_counterexample :
    (load_lexicon natRangeSampler WORDS_TO_SHOW c6content).sample.map
        (fun p => p.2.intensity) = [3]
    ∧ pandasNum "3.7" = NumParse.fin 3
    ∧ ((3 : Int) ≠ 0) := ⟨by decide, by decide, by decide⟩

/-- C6 witness: the provenance theorem evaluated on a concrete sample
row whose source intensity is non-numeric (and hence 0). -/
theorem C6_intensity_coercion_witness :
    ∃ r ∈ (stdFrameOf c6wcontent).rows,
      ((0, c6wrow) : Nat × LexRow).2 = extractRow (stdFrameOf c6wcontent).cols r
      ∧ ((0, c6wrow) : Nat × LexRow).2.intensity =
        toNumericInt (getCell (stdFrameOf c6wcontent).cols r "intensity")
      ∧ (∀ v, getCell (stdFrameOf c6wcontent).cols r "intensity" = Cell.s v →
          pandasNum v = NumParse.nan → ((0, c6wrow) : Nat × LexRow).2.intensity = 0) :=
  C6_intensity_coercion natRangeSampler WORDS_TO_SHOW c6wcontent (0, c6wrow) (by decide)

/-- C8: the presentation order of a session is a permutation of the
sample's index labels -- pairwise distinct, containing exactly the
sample's labels, each exactly once -- generated once at session start
(`startSession` shuffles a copy of the sample's index) and never
modified by the validation submit step, whatever its outcome. -/
theorem C8_presentation_order_bijection (shuffler : List Nat → List Nat)
    (sampler : Nat → Nat → List Nat) (lang pid : String) (log0 : List StoredAnswer)
    (content : List (List String))
    (hsh : ∀ l : List Nat, (shuffler l).Perm l) :
    ((startSession shuffler lang pid (load_lexicon sampler WORDS_TO_SHOW content).sample
        log0).word_indices).Nodup
    ∧ (∀ i : Nat,
        i ∈ (startSession shuffler lang pid (load_lexicon sampler WORDS_TO_SHOW content).sample
          log0).word_indices
        ↔ i ∈ (load_lexicon sampler WORDS_TO_SHOW content).sample.map Prod.fst)
    ∧ (∀ i ∈ (load_lexicon sampler WORDS_TO_SHOW content).sample.map Prod.fst,
        ((startSession shuffler lang pid (load_lexicon sampler WORDS_TO_SHOW content).sample
          log0).word_indices).count i = 1)
    ∧ (∀ (jp : String → Option (List PyVal)) (le : String → Option PyVal)
        (inp : FormInput) (ts : String) (ok : Bool) (st : SessionState),
        (submitStep jp le inp ts ok st).1.word_indices = st.word_indices) := by
  have hperm := hsh ((load_lexicon sampler WORDS_TO_SHOW content).sample.map Prod.fst)
  have hnd := sample_labels_nodup sampler WORDS_TO_SHOW content
  refine ⟨?_, ?_, ?_, ?_⟩
  · exact hperm.nodup_iff.mpr hnd
  · intro i
    exact hperm.mem_iff
  · intro i hi
    show List.count i
      (shuffler ((load_lexicon sampler WORDS_TO_SHOW content).sample.map Prod.fst)) = 1
    rw [hperm.count_eq]
    exact List.count_eq_one_of_mem hnd hi
  · intro jp le inp ts ok st
    cases ok <;> rfl

/-- C8 witness: with `List.reverse` as the shuffle (a permutation), the
session's word order over a concrete three-row sample is duplicate-free
and presents label 0 exactly once. -/
theorem C8_presentation_order_bijection_witness :
    ((startSession List.reverse "sotho" "p"
        (load_lexicon natRangeSampler WORDS_TO_SHOW c8content).sample []).word_indices).Nodup
    ∧ (0 ∈ (startSession List.reverse "sotho" "p"
        (load_lexicon natRangeSampler WORDS_TO_SHOW c8content).sample []).word_indices
        ↔ 0 ∈ (load_lexicon natRangeSampler WORDS_TO_SHOW c8content).sample.map Prod.fst)
    ∧ ((startSession List.reverse "sotho" "p"
        (load_lexicon natRangeSampler WORDS_TO_SHOW c8content).sample []).word_indices).count 0 =
      1 := by
  obtain ⟨h1, h2, h3, _⟩ := C8_presentation_order_bijection List.reverse natRangeSampler
    "sotho" "p" [] c8content (fun l => List.reverse_perm l)
  exact ⟨h1, h2 0, h3 0 (by decide)⟩

end WC
